import Mathlib

/-!
Verification of the hornet-rulers link shortener (src/hornet_rulers.py).

The SQLite table `urls (link TEXT, url TEXT)` has no uniqueness constraint,
so the store is modelled as a list of rows in insertion order.  `get_url`
returns the first matching row (`fetchone`), `set_url` issues an SQL UPDATE
touching every matching row and inserts only when the update touched no row
(`rowcount == 0`), and `delete_url` removes every matching row.

The Tornado handlers are modelled as pure functions from the request
parameters and the store to a response value and the resulting store.
Request-derived template glue (the `prefix` variable passed to every
render call) carries no information relevant to the contract and is
omitted from the response values.
-/

namespace URLManager

/-- One row of the `urls` table: `(link, url)`. -/
abbrev Row := String × String

/-- The `urls` table, rows in insertion (rowid) order. -/
abbrev Store := List Row

/-- `UPDATE urls SET url = ? WHERE link = ?` followed, when `rowcount == 0`,
by `INSERT INTO urls (link, url) VALUES (?, ?)` (lines 48-53). -/
def set_url (link url : String) (rows : Store) : Store :=
  if rows.any (fun r => r.1 == link) then
    rows.map (fun r => if r.1 == link then (r.1, url) else r)
  else
    rows ++ [(link, url)]

/-- `DELETE FROM urls WHERE link = ?` (lines 55-58). -/
def delete_url (link : String) (rows : Store) : Store :=
  rows.filter (fun r => r.1 != link)

/-- `SELECT url FROM urls WHERE link = ?` then `fetchone()`: the url of the
first matching row, or `None` when there is no match (lines 60-68). -/
def get_url (link : String) (rows : Store) : Option String :=
  (rows.find? (fun r => r.1 == link)).map (fun r => r.2)

end URLManager

/-- The response rendered by a handler.  Each constructor records the
template name and the template arguments that vary per request. -/
inductive Response where
  | renderIndex (link url : String)
  | confirmDelete (link existing_url : String)
  | renderDeleted (link : String)
  | confirmUpdate (link existing_url url : String)
  | renderUpdated (link url : String)
  | redirect (status : Nat) (url : String)
  deriving Repr, DecidableEq

namespace MainHandler

open URLManager

/-- Truthiness of `self.get_body_argument('confirmed', False)` (line 91):
the Python value is `False` when the parameter is absent, and the submitted
string otherwise; `not confirmed` holds exactly when the value is `False`
or the empty string. -/
def isConfirmed (confirmed : Option String) : Bool :=
  match confirmed with
  | none => false
  | some s => !(s == "")

/-- Python's `s.startswith(pre)`: the first `len(pre)` characters of `s`
equal `pre`. -/
def startswith (s pre : String) : Bool :=
  s.data.take pre.data.length == pre.data

/-- The URL normalization of lines 110-111: prefix `http://` unless the
submitted url already starts with `http`. -/
def normalizeUrl (url : String) : String :=
  if startswith url "http" then url else "http://" ++ url

/-- `MainHandler.get` (lines 77-86): empty link renders the empty form;
otherwise resolve via the store and either redirect (Tornado's
`redirect` defaults to status 302) or render the pre-filled form. -/
def get (link : String) (rows : Store) : Response :=
  if link.length == 0 then
    Response.renderIndex "" ""
  else
    match get_url link rows with
    | none => Response.renderIndex link ""
    | some url => Response.redirect 302 url

/-- `MainHandler.post` (lines 88-118), as a function from the body
parameters and the store to the response and the resulting store. -/
def post (link url : String) (confirmed : Option String) (rows : Store) :
    Response × Store :=
  if link.length == 0 then
    (Response.renderIndex link url, rows)
  else
    let existing_url := get_url link rows
    if url.length == 0 then
      match existing_url with
      | none => (Response.renderIndex link "", rows)
      | some ex =>
        if !isConfirmed confirmed then
          (Response.confirmDelete link ex, rows)
        else
          (Response.renderDeleted link, delete_url link rows)
    else
      let url' := normalizeUrl url
      match existing_url with
      | some ex =>
        if !isConfirmed confirmed then
          (Response.confirmUpdate link ex url', rows)
        else
          (Response.renderUpdated link url', set_url link url' rows)
      | none =>
        (Response.renderUpdated link url', set_url link url' rows)

end MainHandler

namespace URLManager

theorem get_url_of_update (link url : String) (rows : Store)
    (h : rows.any (fun r => r.1 == link) = true) :
    get_url link (rows.map (fun r => if r.1 == link then (r.1, url) else r)) =
      some url := by
  induction rows with
  | nil => simp at h
  | cons r rest ih =>
    by_cases hr : r.1 == link
    · simp [get_url, List.find?, hr]
    · simp only [List.any_cons, hr, Bool.false_or] at h
      simpa [get_url, List.find?, hr] using ih h

theorem get_url_of_insert (link url : String) (rows : Store)
    (h : rows.any (fun r => r.1 == link) = false) :
    get_url link (rows ++ [(link, url)]) = some url := by
  induction rows with
  | nil => simp [get_url, List.find?]
  | cons r rest ih =>
    simp only [List.any_cons, Bool.or_eq_false_iff] at h
    simpa [get_url, List.find?, h.1] using ih h.2

/-- After `set_url link url`, `get_url link` returns `some url`, on any
starting store. -/
theorem get_url_set_url (link url : String) (rows : Store) :
    get_url link (set_url link url rows) = some url := by
  unfold set_url
  by_cases h : rows.any (fun r => r.1 == link)
  · simpa [h] using get_url_of_update link url rows h
  · simp only [Bool.not_eq_true] at h
    simpa [h] using get_url_of_insert link url rows h

end URLManager

/-- C1: for every non-empty `link` and non-empty `url`, after
`set_url(link, url)` on the store, `get_url(link)` returns exactly that
`url`. -/
theorem c1_set_then_get (link url : String) (rows : URLManager.Store)
    (hl : link ≠ "") (hu : url ≠ "") :
    URLManager.get_url link (URLManager.set_url link url rows) = some url :=
  URLManager.get_url_set_url link url rows

/-- Witness for C1 at link `"a"`, url `"http://x.com"`, empty store. -/
theorem c1_set_then_get_witness :
    URLManager.get_url "a" (URLManager.set_url "a" "http://x.com" []) =
      some "http://x.com" :=
  c1_set_then_get "a" "http://x.com" [] (by decide) (by decide)

namespace URLManager

/-- After `delete_url link`, no row for `link` remains. -/
theorem get_url_delete_url (link : String) (rows : Store) :
    get_url link (delete_url link rows) = none := by
  unfold get_url delete_url
  rw [Option.map_eq_none', List.find?_eq_none]
  intro r hr
  rcases List.mem_filter.mp hr with ⟨-, hkeep⟩
  simp only [bne_iff_ne, ne_eq] at hkeep
  simp [hkeep]

/-- `delete_url` is idempotent on the store. -/
theorem delete_url_idem (link : String) (rows : Store) :
    delete_url link (delete_url link rows) = delete_url link rows := by
  unfold delete_url
  simp [List.filter_filter]

end URLManager

/-- C8: `delete_url` is idempotent at the interface: after `delete_url link`
the call `get_url link` returns absent, and deleting a second time leaves
the store in the same state. -/
theorem c8_delete_idempotent (link : String) (rows : URLManager.Store) :
    URLManager.get_url link (URLManager.delete_url link rows) = none ∧
      URLManager.delete_url link (URLManager.delete_url link rows) =
        URLManager.delete_url link rows :=
  ⟨URLManager.get_url_delete_url link rows,
   URLManager.delete_url_idem link rows⟩

/-- C9: for every link with no row in the store, `get_url` returns the
explicit absent sentinel `none` (the function is total: no exception is
raised on the not-found case). -/
theorem c9_get_url_absent (link : String) (rows : URLManager.Store)
    (h : ∀ r ∈ rows, r.1 ≠ link) :
    URLManager.get_url link rows = none := by
  unfold URLManager.get_url
  rw [Option.map_eq_none', List.find?_eq_none]
  intro r hr
  simp [h r hr]

/-- Witness for C9: link `"b"` against a store holding only `"a"`. -/
theorem c9_get_url_absent_witness :
    URLManager.get_url "b" [("a", "http://x.com")] = none :=
  c9_get_url_absent "b" [("a", "http://x.com")] (by decide)

/-- A non-empty string fails the `len(...) == 0` test of the handlers. -/
theorem length_beq_zero_of_ne (s : String) (h : s ≠ "") :
    (s.length == 0) = false := by
  simp only [beq_eq_false_iff_ne, ne_eq]
  intro h0
  apply h
  cases s with
  | mk d =>
    cases d with
    | nil => rfl
    | cons c cs => simp [String.length] at h0

/-- C5: for every GET with a non-empty link, if the store maps the link the
handler issues an HTTP 302 redirect to the stored URL; if the link is
absent the handler renders the edit form pre-filled with the link and an
empty URL. -/
theorem c5_get_dispatch (link : String) (rows : URLManager.Store)
    (hl : link ≠ "") :
    (∀ u, URLManager.get_url link rows = some u →
       MainHandler.get link rows = Response.redirect 302 u) ∧
    (URLManager.get_url link rows = none →
       MainHandler.get link rows = Response.renderIndex link "") := by
  have hlen : (link.length == 0) = false := length_beq_zero_of_ne link hl
  constructor
  · intro u hu
    simp [MainHandler.get, hlen, hu]
  · intro hn
    simp [MainHandler.get, hlen, hn]

/-- Witness for C5 at link `"a"` with store `a→http://x.com`. -/
theorem c5_get_dispatch_witness :
    MainHandler.get "a" [("a", "http://x.com")] =
      Response.redirect 302 "http://x.com" :=
  (c5_get_dispatch "a" [("a", "http://x.com")] (by decide)).1
    "http://x.com" (by decide)

/-- C2: a POST with link `"a"`, url `"x.com"`, unconfirmed, against a store
mapping `a→old.com`, renders the update-confirmation view showing the old
and the new URL, and leaves the store unchanged. -/
theorem c2_update_confirmation_frame (rows : URLManager.Store)
    (c : Option String)
    (hex : URLManager.get_url "a" rows = some "old.com")
    (hc : MainHandler.isConfirmed c = false) :
    MainHandler.post "a" "x.com" c rows =
      (Response.confirmUpdate "a" "old.com" "http://x.com", rows) := by
  have h1 : (("a" : String).length == 0) = false := by decide
  have h2 : (("x.com" : String).length == 0) = false := by decide
  have h3 : MainHandler.normalizeUrl "x.com" = "http://x.com" := by decide
  simp [MainHandler.post, h1, h2, h3, hex, hc]

/-- Witness for C2 at the store `[("a", "old.com")]` with the `confirmed`
parameter absent. -/
theorem c2_update_confirmation_frame_witness :
    MainHandler.post "a" "x.com" none [("a", "old.com")] =
      (Response.confirmUpdate "a" "old.com" "http://x.com",
       [("a", "old.com")]) :=
  c2_update_confirmation_frame [("a", "old.com")] none (by decide) (by decide)

/-- C6: a POST with link `"a"`, url `"x.com"`, confirmed, against a store
with an existing mapping for `"a"`, renders the "updated" view and leaves
the store mapping `a→http://x.com`. -/
theorem c6_confirmed_update (rows : URLManager.Store) (c : Option String)
    (hex : (URLManager.get_url "a" rows).isSome = true)
    (hc : MainHandler.isConfirmed c = true) :
    (MainHandler.post "a" "x.com" c rows).1 =
      Response.renderUpdated "a" "http://x.com" ∧
    URLManager.get_url "a" (MainHandler.post "a" "x.com" c rows).2 =
      some "http://x.com" := by
  obtain ⟨ex, hex'⟩ := Option.isSome_iff_exists.mp hex
  have h1 : (("a" : String).length == 0) = false := by decide
  have h2 : (("x.com" : String).length == 0) = false := by decide
  have h3 : MainHandler.normalizeUrl "x.com" = "http://x.com" := by decide
  have hset := URLManager.get_url_set_url "a" "http://x.com" rows
  simp [MainHandler.post, h1, h2, h3, hex', hc, hset]

/-- Witness for C6 at the store `[("a", "old.com")]` with
`confirmed="true"`. -/
theorem c6_confirmed_update_witness :
    (MainHandler.post "a" "x.com" (some "true") [("a", "old.com")]).1 =
      Response.renderUpdated "a" "http://x.com" ∧
    URLManager.get_url "a"
        (MainHandler.post "a" "x.com" (some "true") [("a", "old.com")]).2 =
      some "http://x.com" :=
  c6_confirmed_update [("a", "old.com")] (some "true") (by decide) (by decide)

/-- C4: every POST with non-empty link and non-empty url either shows the
normalized url as the new value in the update-confirmation view (store
unchanged) or stores it; the normalization prefixes `http://` exactly when
the submitted url does not begin with `http`, so `"example.com"` becomes
`"http://example.com"` and `"https://example.com"` is unchanged. -/
theorem c4_url_normalization (link url : String) (c : Option String)
    (rows : URLManager.Store) (hl : link ≠ "") (hu : url ≠ "") :
    ((∃ old, MainHandler.post link url c rows =
        (Response.confirmUpdate link old (MainHandler.normalizeUrl url),
         rows)) ∨
      MainHandler.post link url c rows =
        (Response.renderUpdated link (MainHandler.normalizeUrl url),
         URLManager.set_url link (MainHandler.normalizeUrl url) rows)) ∧
    MainHandler.normalizeUrl "example.com" = "http://example.com" ∧
    MainHandler.normalizeUrl "https://example.com" = "https://example.com" := by
  refine ⟨?_, by decide, by decide⟩
  have hl' := length_beq_zero_of_ne link hl
  have hu' := length_beq_zero_of_ne url hu
  cases hex : URLManager.get_url link rows with
  | none =>
    right
    simp [MainHandler.post, hl', hu', hex]
  | some ex =>
    cases hc : MainHandler.isConfirmed c with
    | false =>
      left
      exact ⟨ex, by simp [MainHandler.post, hl', hu', hex, hc]⟩
    | true =>
      right
      simp [MainHandler.post, hl', hu', hex, hc]

/-- Witness for C4 at link `"a"`, url `"example.com"`, empty store,
`confirmed` absent. -/
theorem c4_url_normalization_witness :
    ((∃ old, MainHandler.post "a" "example.com" none [] =
        (Response.confirmUpdate "a" old
           (MainHandler.normalizeUrl "example.com"), [])) ∨
      MainHandler.post "a" "example.com" none [] =
        (Response.renderUpdated "a"
           (MainHandler.normalizeUrl "example.com"),
         URLManager.set_url "a"
           (MainHandler.normalizeUrl "example.com") [])) ∧
    MainHandler.normalizeUrl "example.com" = "http://example.com" ∧
    MainHandler.normalizeUrl "https://example.com" = "https://example.com" :=
  c4_url_normalization "a" "example.com" none [] (by decide) (by decide)

/-- C7: a POST with non-empty link and empty url re-renders the form when
no mapping exists, renders the delete-confirmation view (store unchanged)
when a mapping exists unconfirmed, and deletes the mapping and renders the
"deleted" view when confirmed. -/
theorem c7_empty_url_branches (link : String) (c : Option String)
    (rows : URLManager.Store) (hl : link ≠ "") :
    (URLManager.get_url link rows = none →
       MainHandler.post link "" c rows = (Response.renderIndex link "", rows)) ∧
    (∀ ex, URLManager.get_url link rows = some ex →
       MainHandler.isConfirmed c = false →
       MainHandler.post link "" c rows =
         (Response.confirmDelete link ex, rows)) ∧
    (∀ ex, URLManager.get_url link rows = some ex →
       MainHandler.isConfirmed c = true →
       MainHandler.post link "" c rows =
         (Response.renderDeleted link, URLManager.delete_url link rows) ∧
       URLManager.get_url link (MainHandler.post link "" c rows).2 = none) := by
  have hl' := length_beq_zero_of_ne link hl
  refine ⟨?_, ?_, ?_⟩
  · intro hn
    simp [MainHandler.post, hl', hn]
  · intro ex hex hc
    simp [MainHandler.post, hl', hex, hc]
  · intro ex hex hc
    have hd := URLManager.get_url_delete_url link rows
    constructor
    · simp [MainHandler.post, hl', hex, hc]
    · simp [MainHandler.post, hl', hex, hc, hd]

/-- Witness for C7: deleting link `"a"` from the store `[("a", "u")]` with
`confirmed="yes"`. -/
theorem c7_empty_url_branches_witness :
    MainHandler.post "a" "" (some "yes") [("a", "u")] =
      (Response.renderDeleted "a", URLManager.delete_url "a" [("a", "u")]) ∧
    URLManager.get_url "a"
        (MainHandler.post "a" "" (some "yes") [("a", "u")]).2 = none :=
  (c7_empty_url_branches "a" (some "yes") [("a", "u")] (by decide)).2.2
    "u" (by decide) (by decide)

/-- C10: the handler's confirmation test is Python truthiness of the
`confirmed` body argument: it holds exactly when the parameter is present
with a non-empty value; the literal content is otherwise ignored, so
`"false"`, `"0"` and `"no"` all count as confirmed, and `post` cannot
distinguish two confirmation values of equal truthiness. -/
theorem c10_confirmed_truthiness :
    (∀ c : Option String,
        MainHandler.isConfirmed c = true ↔ ∃ s, c = some s ∧ s ≠ "") ∧
    (∀ (link url : String) (c₁ c₂ : Option String)
        (rows : URLManager.Store),
        MainHandler.isConfirmed c₁ = MainHandler.isConfirmed c₂ →
        MainHandler.post link url c₁ rows = MainHandler.post link url c₂ rows) ∧
    MainHandler.isConfirmed (some "false") = true ∧
    MainHandler.isConfirmed (some "0") = true ∧
    MainHandler.isConfirmed (some "no") = true ∧
    MainHandler.isConfirmed none = false ∧
    MainHandler.isConfirmed (some "") = false := by
  refine ⟨?_, ?_, by decide, by decide, by decide, by decide, by decide⟩
  · intro c
    cases c with
    | none => simp [MainHandler.isConfirmed]
    | some s => simp [MainHandler.isConfirmed]
  · intro link url c₁ c₂ rows h
    unfold MainHandler.post
    rw [h]

/-- Witness for C10: `confirmed="false"` and `confirmed="0"` produce the
same response and store on a concrete request. -/
theorem c10_confirmed_truthiness_witness :
    MainHandler.post "a" "x.com" (some "false") [("a", "old.com")] =
      MainHandler.post "a" "x.com" (some "0") [("a", "old.com")] :=
  c10_confirmed_truthiness.2.1 "a" "x.com" (some "false") (some "0")
    [("a", "old.com")] (by decide)

namespace URLManager

/-- The number of rows the table holds for a given link. -/
def countLink (link : String) (rows : Store) : Nat :=
  rows.countP (fun r => r.1 == link)

/-- A mutating operation on the store. -/
inductive Op where
  | set (link url : String)
  | del (link : String)

/-- Run one operation against the store. -/
def applyOp (rows : Store) : Op → Store
  | Op.set link url => set_url link url rows
  | Op.del link => delete_url link rows

/-- Run a sequence of operations against the store, left to right. -/
def applyOps (ops : List Op) (rows : Store) : Store :=
  ops.foldl applyOp rows

/-- The SQL UPDATE arm of `set_url` preserves every per-link row count. -/
theorem countLink_update (l link url : String) (rows : Store) :
    countLink l
        (rows.map (fun r => if r.1 == link then (r.1, url) else r)) =
      countLink l rows := by
  induction rows with
  | nil => rfl
  | cons r rest ih =>
    by_cases hr : (r.1 == link) = true
    · rw [List.map_cons, if_pos hr]
      simp [countLink, List.countP_cons] at ih ⊢
      omega
    · rw [List.map_cons, if_neg hr]
      simp [countLink, List.countP_cons] at ih ⊢
      omega

/-- When no row matches the link, its row count is zero. -/
theorem countLink_eq_zero_of_not_any (link : String) (rows : Store)
    (h : rows.any (fun r => r.1 == link) = false) :
    countLink link rows = 0 := by
  induction rows with
  | nil => rfl
  | cons r rest ih =>
    rw [List.any_cons, Bool.or_eq_false_iff] at h
    have h2 := ih h.2
    unfold countLink at h2 ⊢
    rw [List.countP_cons, h2]
    simp [h.1]

/-- `set_url` keeps every per-link row count at most one. -/
theorem countLink_set_url_le (l link url : String) (rows : Store)
    (h : countLink l rows ≤ 1) :
    countLink l (set_url link url rows) ≤ 1 := by
  unfold set_url
  by_cases ha : rows.any (fun r => r.1 == link) = true
  · rw [if_pos ha, countLink_update]
    exact h
  · rw [if_neg ha]
    have ha0 : rows.any (fun r => r.1 == link) = false := by
      cases hx : rows.any (fun r => r.1 == link) with
      | false => rfl
      | true => exact absurd hx ha
    by_cases hll : l = link
    · subst hll
      have h0 := countLink_eq_zero_of_not_any l rows ha0
      unfold countLink at h0 ⊢
      rw [List.countP_append, h0]
      simp [List.countP_cons, List.countP_nil]
    · have hne : (link == l) = false := by
        simp only [beq_eq_false_iff_ne, ne_eq]
        exact fun hcon => hll hcon.symm
      have hone : List.countP (fun r => r.1 == l) [(link, url)] = 0 := by
        simp [List.countP_cons, List.countP_nil, hne]
      unfold countLink at h ⊢
      rw [List.countP_append, hone]
      omega

/-- On a store with at most one row for `link`, `set_url link url` leaves
exactly one row for `link`. -/
theorem countLink_set_url_self (link url : String) (rows : Store)
    (h : countLink link rows ≤ 1) :
    countLink link (set_url link url rows) = 1 := by
  unfold set_url
  by_cases ha : rows.any (fun r => r.1 == link) = true
  · rw [if_pos ha, countLink_update]
    obtain ⟨r, hr, hpr⟩ := List.any_eq_true.mp ha
    have hpos : 0 < List.countP (fun r => r.1 == link) rows :=
      List.countP_pos_iff.mpr ⟨r, hr, hpr⟩
    unfold countLink at h ⊢
    omega
  · rw [if_neg ha]
    have ha0 : rows.any (fun r => r.1 == link) = false := by
      cases hx : rows.any (fun r => r.1 == link) with
      | false => rfl
      | true => exact absurd hx ha
    have h0 := countLink_eq_zero_of_not_any link rows ha0
    unfold countLink at h0 ⊢
    rw [List.countP_append, h0]
    simp [List.countP_cons, List.countP_nil]

/-- `delete_url` never increases a per-link row count. -/
theorem countLink_delete_url_le (l link : String) (rows : Store) :
    countLink l (delete_url link rows) ≤ countLink l rows := by
  unfold delete_url
  induction rows with
  | nil => simp [countLink]
  | cons r rest ih =>
    by_cases hk : r.1 = link
    · simp [countLink, List.filter_cons, List.countP_cons, hk] at ih ⊢
      omega
    · simp [countLink, List.filter_cons, List.countP_cons, hk] at ih ⊢
      omega


/-- Any sequence of `set_url`/`delete_url` operations preserves the
at-most-one-row-per-link invariant. -/
theorem countLink_applyOps_le (ops : List Op) (rows : Store)
    (h : ∀ l, countLink l rows ≤ 1) :
    ∀ l, countLink l (applyOps ops rows) ≤ 1 := by
  induction ops generalizing rows with
  | nil => exact h
  | cons op rest ih =>
    cases op with
    | set link url =>
      exact ih (set_url link url rows)
        (fun l => countLink_set_url_le l link url rows (h l))
    | del link =>
      exact ih (delete_url link rows)
        (fun l => le_trans (countLink_delete_url_le l link rows) (h l))

end URLManager

/-- C3: starting from the empty store, every sequence of `set_url` and
`delete_url` operations leaves at most one row per link; and following any
such sequence with `set_url link a` then `set_url link b` leaves exactly
one row for `link`, holding `b`. -/
theorem c3_at_most_one_mapping (ops : List URLManager.Op)
    (link a b : String) :
    (∀ l, URLManager.countLink l (URLManager.applyOps ops []) ≤ 1) ∧
    URLManager.countLink link
        (URLManager.set_url link b
          (URLManager.set_url link a (URLManager.applyOps ops []))) = 1 ∧
    URLManager.get_url link
        (URLManager.set_url link b
          (URLManager.set_url link a (URLManager.applyOps ops []))) =
      some b := by
  have hinv : ∀ l, URLManager.countLink l (URLManager.applyOps ops []) ≤ 1 :=
    URLManager.countLink_applyOps_le ops []
      (fun l => by simp [URLManager.countLink])
  have h1 : URLManager.countLink link
      (URLManager.set_url link a (URLManager.applyOps ops [])) = 1 :=
    URLManager.countLink_set_url_self link a _ (hinv link)
  refine ⟨hinv, ?_, URLManager.get_url_set_url link b _⟩
  exact URLManager.countLink_set_url_self link b _ (le_of_eq h1)
